import Mathlib

/-!
Verification of the DenseNet-BC model definition in
src/asr/densenet/network.py.

The development embeds the module at two levels.

Level 1 (structural): the constructor code of each class builds a fixed
sequence of sub-modules with concrete hyper-parameters. We mirror that as
lists of module descriptors, together with a channel-count semantics, and
prove the architecture and channel-accounting claims on them.

Level 2 (value): the forward passes are embedded as pure functions over a
tensor modelled channel-wise as a list of planes. The numeric per-plane
primitives (convolution kernels, batch normalisation, pooling, dropout)
are supplied by the tensor framework and are abstracted as fields of a
Framework structure; the code under verification only orchestrates them.
-/

/-! ## Level 1: module descriptors -/

/-- One sub-module as registered by the constructors, with the exact
hyper-parameters passed at the registration site. -/
inductive NNMod where
  | view2d (c h w : Nat)
  | viewFlat (features : Nat)
  | conv2d (cin cout kernel stride padding : Nat)
  | batchNorm2d (numFeatures : Nat)
  | swish
  | maxPool2d (kernel strideH strideW padding : Nat)
  | avgPool2d (kernel stride padding : Nat)
  | linear (inFeatures outFeatures : Nat)
deriving DecidableEq

/-- Output channel count of one descriptor, given the input channel
count. A view to (−1, c, h, w) fixes c channels; a convolution outputs
its out-channel parameter; normalisation, the activation and pooling
keep the channel count. -/
def NNMod.outCh : NNMod → Nat → Nat
  | .view2d c _ _, _ => c
  | .viewFlat _, c => c
  | .conv2d _ cout _ _ _, _ => cout
  | .batchNorm2d _, c => c
  | .swish, c => c
  | .maxPool2d _ _ _ _, c => c
  | .avgPool2d _ _ _, c => c
  | .linear _ _, c => c

/-- Constructor arguments of one _DenseLayer, in source order. -/
structure DenseLayerCfg where
  numInputFeatures : Nat
  growthRate : Nat
  bnSize : Nat
  dropRate : ℚ
deriving DecidableEq

/-- The sub-modules registered by _DenseLayer.__init__, in registration
order: norm.1, swish.1, conv.1 (1x1), norm.2, swish.2, conv.2 (3x3,
padding 1). -/
def _DenseLayer.mods (l : DenseLayerCfg) : List NNMod :=
  [ .batchNorm2d l.numInputFeatures,
    .swish,
    .conv2d l.numInputFeatures (l.bnSize * l.growthRate) 1 1 0,
    .batchNorm2d (l.bnSize * l.growthRate),
    .swish,
    .conv2d (l.bnSize * l.growthRate) l.growthRate 3 1 1 ]

/-- The dense-layer forward concatenates the input with the growth_rate
new channels produced by conv.2, so its channel count grows by the
growth rate. -/
def DenseLayerCfg.outCh (l : DenseLayerCfg) (c : Nat) : Nat :=
  c + l.growthRate

/-- The layers registered by _DenseBlock.__init__: layer i is built with
num_input_features + i * growth_rate input channels. -/
def _DenseBlock.layers (numLayers numInputFeatures bnSize growthRate : Nat)
    (dropRate : ℚ) : List DenseLayerCfg :=
  (List.range numLayers).map fun i =>
    ⟨numInputFeatures + i * growthRate, growthRate, bnSize, dropRate⟩

/-- The sub-modules registered by _Transition.__init__, in registration
order: norm, swish, conv (1x1), pool (average, kernel 3, stride 2,
padding 1). -/
def _Transition.mods (numInputFeatures numOutputFeatures : Nat) : List NNMod :=
  [ .batchNorm2d numInputFeatures,
    .swish,
    .conv2d numInputFeatures numOutputFeatures 1 1 0,
    .avgPool2d 3 2 1 ]

/-- One item of the hidden sequential of DenseNet: a plain module, a
dense block, or a transition. -/
inductive HItem where
  | plain (m : NNMod)
  | block (layers : List DenseLayerCfg)
  | transition (numInputFeatures numOutputFeatures : Nat)
deriving DecidableEq

/-- Channel count after one hidden item.  A block chains its layers; a
transition is the chain of its registered sub-modules. -/
def HItem.outCh : HItem → Nat → Nat
  | .plain m, c => m.outCh c
  | .block ls, c => ls.foldl (fun a l => l.outCh a) c
  | .transition nin nout, c =>
      (_Transition.mods nin nout).foldl (fun a m => m.outCh a) c

/-- Channel count after a sequence of hidden items. -/
def chanTrace (items : List HItem) (c : Nat) : Nat :=
  items.foldl (fun a it => it.outCh a) c

/-- The dense-block / transition part of DenseNet.__init__: one block per
entry of block_config, with a transition halving the channel count after
every block except the last, threading num_features exactly as the loop
does. -/
def DenseNet.body (growthRate bnSize : Nat) (dropRate : ℚ) :
    Nat → List Nat → List HItem
  | _, [] => []
  | numFeatures, numLayers :: rest =>
    let b := HItem.block
      (_DenseBlock.layers numLayers numFeatures bnSize growthRate dropRate)
    let nf := numFeatures + numLayers * growthRate
    if rest.isEmpty then [b]
    else
      b :: HItem.transition nf (nf / 2) ::
        DenseNet.body growthRate bnSize dropRate (nf / 2) rest

/-- The num_features value after the block/transition loop of
DenseNet.__init__ (added layers * growth per block, integer-halved at
every transition, no halving after the last block). -/
def DenseNet.finalFeatures (growthRate : Nat) : Nat → List Nat → Nat
  | nf, [] => nf
  | nf, numLayers :: rest =>
    if rest.isEmpty then nf + numLayers * growthRate
    else DenseNet.finalFeatures growthRate
      ((nf + numLayers * growthRate) / 2) rest

/-- The full hidden sequential built by DenseNet.__init__: stem, body,
head, in registration order, including the hard-coded final flatten size
195 * 4. -/
def DenseNet.mkHidden (growthRate : Nat) (blockConfig : List Nat)
    (numInitFeatures bnSize : Nat) (dropRate : ℚ) (yDim : Nat) : List HItem :=
  [ HItem.plain (.view2d 2 129 21),
    HItem.plain (.conv2d 2 numInitFeatures 3 1 1),
    HItem.plain (.batchNorm2d numInitFeatures),
    HItem.plain .swish,
    HItem.plain (.maxPool2d 3 2 1 1) ]
  ++ DenseNet.body growthRate bnSize dropRate numInitFeatures blockConfig
  ++ [ HItem.plain (.batchNorm2d
         (DenseNet.finalFeatures growthRate numInitFeatures blockConfig)),
       HItem.plain .swish,
       HItem.plain (.avgPool2d 2 1 0),
       HItem.plain (.viewFlat (195 * 4)),
       HItem.plain (.linear (195 * 4) yDim) ]

/-- Checks that a list of hidden items is blocks alternating with
transitions, ends with a block, and has a transition after every block
except the last. -/
def isBlockTransChain : List HItem → Bool
  | [HItem.block _] => true
  | HItem.block _ :: HItem.transition _ _ :: rest => isBlockTransChain rest
  | _ => false

/-! ## Level 2: value-level forward passes

A tensor is a list of channel planes of some type alpha.  The numeric
per-plane primitives live in the tensor framework, outside this
repository; they are abstracted as the fields of a Framework value and
the embedded forwards only orchestrate them, exactly as the source
does.  rho is the type of the random state consumed by dropout. -/

/-- The per-plane primitives supplied by the tensor framework
(collaborator contract of the spec): per-channel batch-norm affine
application, the swish activation, one output plane of a 1x1 and of a
3x3 padded convolution from a weight row, the three pooling
configurations used by the network, mode-aware random dropout, the two
reshapes, and the clipped softmax of the pyro dependency. -/
structure Framework (α ρ : Type) where
  normApply : ℚ → ℚ → α → α
  swishApply : α → α
  conv1x1Apply : List ℚ → List α → α
  conv3x3Apply : List ℚ → List α → α
  maxPoolApply : α → α
  avgPool3Apply : α → α
  avgPool2Apply : α → α
  dropoutApply : ρ → ℚ → Bool → α → α
  viewStem : List ℚ → List α
  flattenApply : List α → List ℚ
  clippedSoftmaxApply : ℚ → List ℚ → List ℚ

/-- BatchNorm2d forward: the per-channel affine map with the per-channel
weight and bias lists. -/
def batchNormT (F : Framework α ρ) (g b : List ℚ) (x : List α) : List α :=
  List.zipWith (fun gb c => F.normApply gb.1 gb.2 c) (g.zip b) x

/-- Swish forward: the activation applied to every channel plane. -/
def swishT (F : Framework α ρ) (x : List α) : List α :=
  x.map F.swishApply

/-- Conv2d forward with 1x1 kernels: one output plane per weight row. -/
def conv1x1T (F : Framework α ρ) (w : List (List ℚ)) (x : List α) : List α :=
  w.map fun row => F.conv1x1Apply row x

/-- Conv2d forward with 3x3 kernels: one output plane per weight row. -/
def conv3x3T (F : Framework α ρ) (w : List (List ℚ)) (x : List α) : List α :=
  w.map fun row => F.conv3x3Apply row x

/-- F.dropout forward: the mode-aware random element zeroing, per
channel plane. -/
def dropoutT (F : Framework α ρ) (r : ρ) (p : ℚ) (training : Bool)
    (x : List α) : List α :=
  x.map (F.dropoutApply r p training)

/-- Learned parameter tensors of one _DenseLayer: the two batch-norm
weight/bias pairs and the two convolution weights (one flattened kernel
row per output channel), plus the stored drop_rate. -/
structure DLayerP where
  g1 : List ℚ
  b1 : List ℚ
  w1 : List (List ℚ)
  g2 : List ℚ
  b2 : List ℚ
  w2 : List (List ℚ)
  dropRate : ℚ
deriving DecidableEq

/-- The sequential sub-stack of _DenseLayer (norm.1, swish.1, conv.1,
norm.2, swish.2, conv.2), whose output the forward calls new_features. -/
def _DenseLayer.stackT (F : Framework α ρ) (P : DLayerP) (x : List α) :
    List α :=
  conv3x3T F P.w2 (swishT F (batchNormT F P.g2 P.b2
    (conv1x1T F P.w1 (swishT F (batchNormT F P.g1 P.b1 x)))))

/-- _DenseLayer.forward: compute new_features from the sub-stack, apply
dropout to them only when drop_rate > 0, and concatenate the input with
the new features along the channel axis. -/
def _DenseLayer.forwardT (F : Framework α ρ) (r : ρ) (training : Bool)
    (P : DLayerP) (x : List α) : List α :=
  let nf := _DenseLayer.stackT F P x
  let nf2 := if P.dropRate > 0 then dropoutT F r P.dropRate training nf else nf
  x ++ nf2

/-- _DenseBlock forward: the layers applied in sequence, each output
feeding the next layer. -/
def _DenseBlock.forwardT (F : Framework α ρ) (r : ρ) (training : Bool)
    (ls : List DLayerP) (x : List α) : List α :=
  ls.foldl (fun a P => _DenseLayer.forwardT F r training P a) x

/-- Learned parameter tensors of one _Transition: batch-norm weight and
bias and the 1x1 convolution weight. -/
structure TransP where
  g : List ℚ
  b : List ℚ
  w : List (List ℚ)
deriving DecidableEq

/-- _Transition forward: norm, swish, 1x1 convolution, average pooling
(kernel 3, stride 2, padding 1) in sequence. -/
def _Transition.forwardT (F : Framework α ρ) (t : TransP) (x : List α) :
    List α :=
  (conv1x1T F t.w (swishT F (batchNormT F t.g t.b x))).map F.avgPool3Apply

/-- One item of the hidden body at value level: a dense block or a
transition. -/
inductive HVal where
  | block (layers : List DLayerP)
  | trans (t : TransP)
deriving DecidableEq

/-- Forward of one body item. -/
def HVal.forwardT (F : Framework α ρ) (r : ρ) (training : Bool) :
    HVal → List α → List α
  | .block ls, x => _DenseBlock.forwardT F r training ls x
  | .trans t, x => _Transition.forwardT F t x

/-- The full parameter set of a DenseNet, grouped by the modules that
own the tensors, in registration order: stem convolution and norm, the
body blocks and transitions, the final norm, and the classifier. -/
structure NetP where
  convI : List (List ℚ)
  gI : List ℚ
  bI : List ℚ
  body : List HVal
  gF : List ℚ
  bF : List ℚ
  linW : List (List ℚ)
  linB : List ℚ
  eps : ℚ
deriving DecidableEq

/-- Dot product of two rational lists. -/
def dotQ (a b : List ℚ) : ℚ :=
  (List.zipWith (fun x y => x * y) a b).sum

/-- nn.Linear forward: one affine output per weight row. -/
def linearT (w : List (List ℚ)) (b : List ℚ) (v : List ℚ) : List ℚ :=
  (w.zip b).map fun rb => dotQ rb.1 v + rb.2

/-- The hidden sequential of DenseNet applied to one flat sample: stem
(view, conv.i, norm.i, swish.i, pool.i), the body items in order, the
head (norm.f, swish.f, pool.f, view.f, class.f). -/
def DenseNet.hiddenT (F : Framework α ρ) (r : ρ) (training : Bool)
    (P : NetP) (x : List ℚ) : List ℚ :=
  let h0 := F.viewStem x
  let h1 := conv3x3T F P.convI h0
  let h2 := (swishT F (batchNormT F P.gI P.bI h1)).map F.maxPoolApply
  let h3 := P.body.foldl (fun a it => HVal.forwardT F r training it a) h2
  let h4 := (swishT F (batchNormT F P.gF P.bF h3)).map F.avgPool2Apply
  linearT P.linW P.linB (F.flattenApply h4)

/-- DenseNet.forward: the hidden stack, then the clipped softmax over
labels when the softmax flag is set, the raw scores otherwise. -/
def DenseNet.forwardT (F : Framework α ρ) (r : ρ) (training : Bool)
    (P : NetP) (x : List ℚ) (softmax : Bool) : List ℚ :=
  let out := DenseNet.hiddenT F r training P x
  if softmax then F.clippedSoftmaxApply P.eps out else out

/-- Whether a body item contains no active dropout: every dense layer of
a block was constructed with drop_rate 0 (transitions never drop). -/
def HVal.dropFree : HVal → Bool
  | .block ls => ls.all fun l => decide (l.dropRate = 0)
  | .trans _ => true

/-- State-passing form of DenseNet.forward: the parameter set is the
state, each module reads its own parameters from it and writes nothing
back, mirroring the source forward, which contains no assignment to any
parameter tensor.  BatchNorm running statistics are buffers, not
parameters, and are outside this state. -/
def DenseNet.forwardS (F : Framework α ρ) (r : ρ) (training : Bool)
    (p : NetP) (x : List ℚ) (softmax : Bool) : NetP × List ℚ :=
  let s0 : NetP × List α := (p, F.viewStem x)
  let s1 : NetP × List α := (s0.1, conv3x3T F s0.1.convI s0.2)
  let s2 : NetP × List α :=
    (s1.1, (swishT F (batchNormT F s1.1.gI s1.1.bI s1.2)).map F.maxPoolApply)
  let s3 : NetP × List α := s2.1.body.foldl
    (fun st it => (st.1, HVal.forwardT F r training it st.2)) s2
  let s4 : NetP × List α :=
    (s3.1, (swishT F (batchNormT F s3.1.gF s3.1.bF s3.2)).map F.avgPool2Apply)
  let s5 : NetP × List ℚ :=
    (s4.1, linearT s4.1.linW s4.1.linB (F.flattenApply s4.2))
  (s5.1, if softmax then F.clippedSoftmaxApply s5.1.eps s5.2 else s5.2)

/-! ## The initialisation pass (lines 117-125)

nn.init.kaiming_normal draws every entry of a convolution weight from
the variance-scaled normal distribution of the framework RNG; the draws
are modelled as a stream rand : Nat -> rational consumed one entry at a
time in module-traversal order.  BatchNorm2d weights are filled with 1
and biases with 0, and the Linear bias with 0, deterministically; the
Linear weight is not touched. -/

/-- Refill of one convolution weight from the random stream starting at
an offset, one draw per entry; returns the refilled weight and the next
unused offset. -/
def kaimingFill (rand : Nat → ℚ) : Nat → List (List ℚ) →
    List (List ℚ) × Nat
  | off, [] => ([], off)
  | off, row :: rest =>
    let rest2 := kaimingFill rand (off + row.length) rest
    (((List.range row.length).map fun i => rand (off + i)) :: rest2.1,
     rest2.2)

/-- The initialisation pass restricted to the modules of one dense
layer, in traversal order: fresh kaiming fills for conv.1 and conv.2,
unit weight and zero bias for both norms. -/
def DLayerP.initPass (rand : Nat → ℚ) (off : Nat) (P : DLayerP) :
    DLayerP × Nat :=
  let w1b := kaimingFill rand off P.w1
  let w2b := kaimingFill rand w1b.2 P.w2
  (⟨P.g1.map fun _ => (1 : ℚ), P.b1.map fun _ => (0 : ℚ), w1b.1,
    P.g2.map fun _ => (1 : ℚ), P.b2.map fun _ => (0 : ℚ), w2b.1,
    P.dropRate⟩, w2b.2)

/-- The initialisation pass restricted to one transition. -/
def TransP.initPass (rand : Nat → ℚ) (off : Nat) (t : TransP) :
    TransP × Nat :=
  let wb := kaimingFill rand off t.w
  (⟨t.g.map fun _ => (1 : ℚ), t.b.map fun _ => (0 : ℚ), wb.1⟩, wb.2)

/-- The initialisation pass over the layers of one block, threading the
stream offset. -/
def blockInitPass (rand : Nat → ℚ) : Nat → List DLayerP →
    List DLayerP × Nat
  | off, [] => ([], off)
  | off, l :: rest =>
    let l2 := DLayerP.initPass rand off l
    let rest2 := blockInitPass rand l2.2 rest
    (l2.1 :: rest2.1, rest2.2)

/-- The initialisation pass over one body item. -/
def HVal.initPass (rand : Nat → ℚ) (off : Nat) : HVal → HVal × Nat
  | .block ls =>
    let r2 := blockInitPass rand off ls
    (.block r2.1, r2.2)
  | .trans t =>
    let r2 := TransP.initPass rand off t
    (.trans r2.1, r2.2)

/-- The initialisation pass over the body items, threading the stream
offset. -/
def bodyInitPass (rand : Nat → ℚ) : Nat → List HVal → List HVal × Nat
  | off, [] => ([], off)
  | off, it :: rest =>
    let it2 := HVal.initPass rand off it
    let rest2 := bodyInitPass rand it2.2 rest
    (it2.1 :: rest2.1, rest2.2)

/-- The one-time initialisation pass of DenseNet.__init__ over the whole
module tree, in traversal order: every Conv2d weight is refilled from
the stream, every BatchNorm2d gets unit weight and zero bias, the Linear
gets a zero bias and keeps its weight. -/
def NetP.initPass (rand : Nat → ℚ) (off : Nat) (P : NetP) : NetP × Nat :=
  let cI := kaimingFill rand off P.convI
  let body2 := bodyInitPass rand cI.2 P.body
  (⟨cI.1, P.gI.map fun _ => (1 : ℚ), P.bI.map fun _ => (0 : ℚ), body2.1,
    P.gF.map fun _ => (1 : ℚ), P.bF.map fun _ => (0 : ℚ),
    P.linW, P.linB.map fun _ => (0 : ℚ), P.eps⟩, body2.2)

/-- Erase all convolution weights, keeping every other parameter:
two parameter sets with equal erasure differ at most in convolution
weights. -/
def DLayerP.eraseConv (P : DLayerP) : DLayerP :=
  { P with w1 := [], w2 := [] }

/-- Erase the convolution weight of a transition. -/
def TransP.eraseConv (t : TransP) : TransP :=
  { t with w := [] }

/-- Erase all convolution weights of a body item. -/
def HVal.eraseConv : HVal → HVal
  | .block ls => .block (ls.map DLayerP.eraseConv)
  | .trans t => .trans t.eraseConv

/-- Erase all convolution weights of the network. -/
def NetP.eraseConv (P : NetP) : NetP :=
  { P with convI := [], body := P.body.map HVal.eraseConv }

/-- Every entry of the list is 1. -/
def allOnes (l : List ℚ) : Prop := ∀ v ∈ l, v = 1

/-- Every entry of the list is 0. -/
def allZeros (l : List ℚ) : Prop := ∀ v ∈ l, v = 0

/-- Both norms of a dense layer carry unit weights and zero biases. -/
def DLayerP.normsInit (P : DLayerP) : Prop :=
  allOnes P.g1 ∧ allZeros P.b1 ∧ allOnes P.g2 ∧ allZeros P.b2

/-- The norm of a transition carries unit weight and zero bias. -/
def TransP.normsInit (t : TransP) : Prop :=
  allOnes t.g ∧ allZeros t.b

/-- All norms of a body item carry unit weights and zero biases. -/
def HVal.normsInit : HVal → Prop
  | .block ls => ∀ l ∈ ls, l.normsInit
  | .trans t => t.normsInit

/-! ## The output interface over the reals (lines 127-132)

The clipped softmax is a numeric statement, so it is modelled over the
real numbers, with the hidden stack output of one sample abstracted as a
vector of raw scores. -/

/-- nn.Softmax over one row of n scores. -/
noncomputable def softmaxR (n : Nat) (x : Fin n → ℝ) (i : Fin n) : ℝ :=
  Real.exp (x i) / ∑ j, Real.exp (x j)

/-- Modelled from the spec: ClippedSoftmax comes from the pyro
dependency, whose code is not part of this repository; per the spec it
is a softmax whose output probabilities are floored away from exact 0
and capped away from exact 1 by the configured epsilon. -/
noncomputable def ClippedSoftmax (eps : ℝ) (n : Nat) (x : Fin n → ℝ)
    (i : Fin n) : ℝ :=
  max eps (min (1 - eps) (softmaxR n x i))

/-- DenseNet.forward at the output interface: out abstracts the hidden
stack output for one sample; the flag selects the clipped softmax over
labels or the raw scores. -/
noncomputable def DenseNet.forwardR (n : Nat) (out : Fin n → ℝ) (eps : ℝ)
    (softmax : Bool) : Fin n → ℝ :=
  if softmax then ClippedSoftmax eps n out else out

/-! ## View.forward with a wildcard batch dimension (lines 14-21, 114) -/

/-- torch view with target shape (-1, k) applied to a tensor of numel
elements: succeeds exactly when numel is divisible by k, inferring the
wildcard batch dimension as the quotient; any other numel raises a
shape error. -/
def View.forwardFlat (k : Nat) (numel : Nat) : Option (Nat × Nat) :=
  if numel % k = 0 then some (numel / k, k) else none

/-! ## Concrete instances used by the witnesses -/

/-- A small executable framework instance over rational planes, with a
Boolean random state that the dropout primitive genuinely consumes. -/
def ratFramework : Framework ℚ Bool :=
  { normApply := fun g b c => g * c + b
    swishApply := fun c => c * c
    conv1x1Apply := fun row x => dotQ row x
    conv3x3Apply := fun row x => dotQ row x
    maxPoolApply := fun c => c
    avgPool3Apply := fun c => c
    avgPool2Apply := fun c => c
    dropoutApply := fun r p _ c => if r then c else c + p
    viewStem := fun x => x
    flattenApply := fun x => x
    clippedSoftmaxApply := fun _ v => v }

/-- A concrete dense layer parameter set whose conv.2 has two output
channels (growth rate 2) and drop_rate 0. -/
def dl0 : DLayerP :=
  ⟨[1], [0], [[1]], [1, 1], [0, 0], [[2], [3]], 0⟩

/-- A concrete network parameter set with one single-layer dense block
and no dropout. -/
def net0 : NetP :=
  ⟨[[1], [2]], [1, 1], [0, 0], [HVal.block [dl0]], [1], [0],
   [[1, 1]], [0], 1 / 1000⟩
/-! ### Helper lemmas for level 1 -/

/-- Folding dense-layer channel growth over a block whose layers all
share one growth rate adds length * growth. -/
theorem foldl_outCh_growth (g : Nat) :
    ∀ (ls : List DenseLayerCfg) (c : Nat), (∀ l ∈ ls, l.growthRate = g) →
      ls.foldl (fun a l => l.outCh a) c = c + ls.length * g := by
  intro ls
  induction ls with
  | nil => intro c _; simp
  | cons l rest ih =>
    intro c h
    have hl : l.growthRate = g := h l (List.mem_cons_self l rest)
    have hrest : ∀ x ∈ rest, x.growthRate = g :=
      fun x hx => h x (List.mem_cons_of_mem l hx)
    rw [List.foldl_cons, ih _ hrest, DenseLayerCfg.outCh, hl,
      List.length_cons]
    ring

/-! ### Level 1 claim theorems -/

/-- C2: the dense block is a chain of exactly N dense layers; layer i
(0-based) is constructed with initial_channels + i * growth_rate input
channels; and the chained channel count after the block equals
initial_channels + N * growth_rate. -/
theorem denseBlock_chain (numLayers numInputFeatures bnSize growthRate : Nat)
    (dropRate : ℚ) :
    (_DenseBlock.layers numLayers numInputFeatures bnSize growthRate
        dropRate).length = numLayers ∧
    (∀ i, i < numLayers →
      (_DenseBlock.layers numLayers numInputFeatures bnSize growthRate
          dropRate)[i]? =
        some ⟨numInputFeatures + i * growthRate, growthRate, bnSize,
          dropRate⟩) ∧
    HItem.outCh
        (.block (_DenseBlock.layers numLayers numInputFeatures bnSize
          growthRate dropRate)) numInputFeatures =
      numInputFeatures + numLayers * growthRate := by
  refine ⟨by simp [_DenseBlock.layers], ?_, ?_⟩
  · intro i hi
    simp [_DenseBlock.layers, List.getElem?_map, List.getElem?_range, hi]
  · have hmem : ∀ l ∈ _DenseBlock.layers numLayers numInputFeatures bnSize
        growthRate dropRate, l.growthRate = growthRate := by
      intro l hl
      simp only [_DenseBlock.layers, List.mem_map, List.mem_range] at hl
      obtain ⟨i, _, rfl⟩ := hl
      rfl
    have hlen : (_DenseBlock.layers numLayers numInputFeatures bnSize
        growthRate dropRate).length = numLayers := by
      simp [_DenseBlock.layers]
    rw [HItem.outCh, foldl_outCh_growth growthRate _ _ hmem, hlen]

/-- C2 witness: a concrete block of 3 layers with growth rate 2 starting
at 8 channels has its middle layer built with 10 input channels and
outputs 14 channels. -/
theorem denseBlock_chain_witness :
    (_DenseBlock.layers 3 8 4 2 0)[1]? = some ⟨10, 2, 4, 0⟩ ∧
    HItem.outCh (.block (_DenseBlock.layers 3 8 4 2 0)) 8 = 14 :=
  ⟨(denseBlock_chain 3 8 4 2 0).2.1 1 (by decide),
   (denseBlock_chain 3 8 4 2 0).2.2⟩

/-- C3: with the default parameters growth_rate = 4,
block_config = (6, 12, 24, 48, 16) and 64 stem channels, the channel
count traced through the blocks (add layers * growth) and the
intermediate transitions (integer-halve) ends at 195, which is exactly
the channel count implied by the hard-coded flatten size 195 * 4 at
4 spatial positions. -/
theorem defaultConfig_channels_match_flatten :
    chanTrace (DenseNet.body 4 4 0 64 [6, 12, 24, 48, 16]) 64 = 195 ∧
    DenseNet.finalFeatures 4 64 [6, 12, 24, 48, 16] = 195 ∧
    195 * 4 / 4 = 195 := by
  refine ⟨by decide, by decide, by decide⟩

/-- C5: a transition stage registers, in order, normalisation, the
activation, a 1x1 convolution from its input channel parameter to its
output channel parameter, and average pooling with window 3, stride 2,
padding 1; its output channel count equals the configured output
parameter whatever the input channel count; and in the assembled body a
transition follows every dense block except the last. -/
theorem transition_structure :
    (∀ nin nout, _Transition.mods nin nout =
      [ .batchNorm2d nin, .swish, .conv2d nin nout 1 1 0,
        .avgPool2d 3 2 1 ]) ∧
    (∀ nin nout cin,
      (_Transition.mods nin nout).foldl (fun a m => m.outCh a) cin = nout) ∧
    (∀ growthRate bnSize dropRate numFeatures blockConfig,
      blockConfig ≠ [] →
      isBlockTransChain
        (DenseNet.body growthRate bnSize dropRate numFeatures blockConfig)
        = true) := by
  refine ⟨fun nin nout => rfl, fun nin nout cin => rfl, ?_⟩
  intro growthRate bnSize dropRate numFeatures blockConfig
  induction blockConfig generalizing numFeatures with
  | nil => intro h; exact absurd rfl h
  | cons n rest ih =>
    intro _
    cases rest with
    | nil => rfl
    | cons m rest2 =>
      have h2 : (m :: rest2) ≠ [] := by simp
      simpa [DenseNet.body, isBlockTransChain] using
        ih (((numFeatures + n * growthRate) / 2)) h2

/-- C5 witness: a concrete two-block body is a block followed by one
transition followed by the final block. -/
theorem transition_structure_witness :
    isBlockTransChain (DenseNet.body 4 4 0 64 [6, 12]) = true :=
  transition_structure.2.2 4 4 0 64 [6, 12] (by decide)

/-- C6: the assembled hidden sequential starts with the stem reshape to
(2, 129, 21), a 3x3 unit-padding convolution to num_init_features
channels, normalisation, the activation and max pooling with window 3,
stride (2, 1), padding 1, in that order; and ends with normalisation,
the activation, average pooling with window 2 and stride 1, the reshape
to the fixed flat size 195 * 4 and the linear map to the label count, in
that order. -/
theorem stem_and_head_structure (growthRate : Nat) (blockConfig : List Nat)
    (numInitFeatures bnSize : Nat) (dropRate : ℚ) (yDim : Nat) :
    (DenseNet.mkHidden growthRate blockConfig numInitFeatures bnSize
        dropRate yDim).take 5 =
      [ HItem.plain (.view2d 2 129 21),
        HItem.plain (.conv2d 2 numInitFeatures 3 1 1),
        HItem.plain (.batchNorm2d numInitFeatures),
        HItem.plain .swish,
        HItem.plain (.maxPool2d 3 2 1 1) ] ∧
    ((DenseNet.mkHidden growthRate blockConfig numInitFeatures bnSize
        dropRate yDim).drop 5).drop
      (DenseNet.body growthRate bnSize dropRate numInitFeatures
        blockConfig).length =
      [ HItem.plain (.batchNorm2d
          (DenseNet.finalFeatures growthRate numInitFeatures blockConfig)),
        HItem.plain .swish,
        HItem.plain (.avgPool2d 2 1 0),
        HItem.plain (.viewFlat (195 * 4)),
        HItem.plain (.linear (195 * 4) yDim) ] := by
  constructor
  · rfl
  · rw [show (DenseNet.mkHidden growthRate blockConfig numInitFeatures bnSize
        dropRate yDim).drop 5 =
      DenseNet.body growthRate bnSize dropRate numInitFeatures blockConfig ++
      [ HItem.plain (.batchNorm2d
          (DenseNet.finalFeatures growthRate numInitFeatures blockConfig)),
        HItem.plain .swish,
        HItem.plain (.avgPool2d 2 1 0),
        HItem.plain (.viewFlat (195 * 4)),
        HItem.plain (.linear (195 * 4) yDim) ] from by
      rw [DenseNet.mkHidden, List.append_assoc]
      rfl]
    exact List.drop_left _ _


/-! ### Level 2 helper lemmas -/

/-- The dense-layer sub-stack emits one plane per conv.2 weight row. -/
theorem stackT_length (F : Framework α ρ) (P : DLayerP) (x : List α) :
    (_DenseLayer.stackT F P x).length = P.w2.length := by
  simp [_DenseLayer.stackT, conv3x3T]

/-- C1: for every input tensor x, a dense layer built so that conv.2 has
growth_rate output channels returns the concatenation of x unchanged
with growth_rate new channels: the first channels of the output are
exactly x and the output channel count is the input count plus the
growth rate. -/
theorem denseLayer_identity_passthrough (F : Framework α ρ) (r : ρ)
    (training : Bool) (P : DLayerP) (growthRate : Nat)
    (hw : P.w2.length = growthRate) (x : List α) :
    (_DenseLayer.forwardT F r training P x).take x.length = x ∧
    (_DenseLayer.forwardT F r training P x).length = x.length + growthRate := by
  have e : _DenseLayer.forwardT F r training P x =
      x ++ (if P.dropRate > 0
        then dropoutT F r P.dropRate training (_DenseLayer.stackT F P x)
        else _DenseLayer.stackT F P x) := rfl
  have hnf : (if P.dropRate > 0
      then dropoutT F r P.dropRate training (_DenseLayer.stackT F P x)
      else _DenseLayer.stackT F P x).length = growthRate := by
    split
    · rw [dropoutT, List.length_map, stackT_length, hw]
    · rw [stackT_length, hw]
  constructor
  · rw [e]
    exact List.take_left x _
  · rw [e, List.length_append, hnf]

/-- C1 witness: for the concrete layer dl0 (growth rate 2) on the
two-channel input [5, 7], the first two output channels are [5, 7] and
the output has 2 + 2 channels. -/
theorem denseLayer_identity_passthrough_witness :
    dl0.w2.length = 2 ∧
    (_DenseLayer.forwardT ratFramework true false dl0 [5, 7]).take 2 =
      [5, 7] ∧
    (_DenseLayer.forwardT ratFramework true false dl0 [5, 7]).length =
      2 + 2 := by
  have h := denseLayer_identity_passthrough ratFramework true false dl0 2
    rfl [5, 7]
  exact ⟨rfl, h.1, h.2⟩

/-- A dense layer built with drop_rate 0 never reaches its dropout
branch, so its forward does not depend on the random state. -/
theorem denseLayer_forwardT_rng_free (F : Framework α ρ) (training : Bool)
    (P : DLayerP) (hP : P.dropRate = 0) (r1 r2 : ρ) (x : List α) :
    _DenseLayer.forwardT F r1 training P x =
      _DenseLayer.forwardT F r2 training P x := by
  have e : ∀ r : ρ, _DenseLayer.forwardT F r training P x =
      x ++ (if P.dropRate > 0
        then dropoutT F r P.dropRate training (_DenseLayer.stackT F P x)
        else _DenseLayer.stackT F P x) := fun r => rfl
  rw [e r1, e r2, hP]
  simp

/-- A dense block whose layers all have drop_rate 0 does not depend on
the random state. -/
theorem denseBlock_forwardT_rng_free (F : Framework α ρ) (training : Bool)
    (ls : List DLayerP) (h : ∀ l ∈ ls, l.dropRate = 0) (r1 r2 : ρ) :
    ∀ x : List α, _DenseBlock.forwardT F r1 training ls x =
      _DenseBlock.forwardT F r2 training ls x := by
  induction ls with
  | nil => intro x; rfl
  | cons l rest ih =>
    intro x
    have e : ∀ (r : ρ) (y : List α),
        _DenseBlock.forwardT F r training (l :: rest) y =
        _DenseBlock.forwardT F r training rest
          (_DenseLayer.forwardT F r training l y) := fun r y => rfl
    rw [e r1, e r2,
      denseLayer_forwardT_rng_free F training l
        (h l (List.mem_cons_self l rest)) r1 r2 x]
    exact ih (fun a ha => h a (List.mem_cons_of_mem l ha)) _

/-- A dropout-free body item does not depend on the random state. -/
theorem hval_forwardT_rng_free (F : Framework α ρ) (training : Bool)
    (it : HVal) (h : it.dropFree = true) (r1 r2 : ρ) (x : List α) :
    HVal.forwardT F r1 training it x = HVal.forwardT F r2 training it x := by
  cases it with
  | block ls =>
    have hls : ∀ l ∈ ls, l.dropRate = 0 := by
      intro l hl
      have := (List.all_eq_true.mp h) l hl
      exact of_decide_eq_true this
    exact denseBlock_forwardT_rng_free F training ls hls r1 r2 x
  | trans t => rfl

/-- C9: a network whose dense layers were all built with drop_rate 0,
run in evaluation mode, returns identical outputs for two forward passes
on the same input with the same parameters, whatever random states the
two passes draw. -/
theorem forward_deterministic_no_dropout (F : Framework α ρ) (P : NetP)
    (x : List ℚ) (softmax : Bool) (h : P.body.all HVal.dropFree = true)
    (r1 r2 : ρ) :
    DenseNet.forwardT F r1 false P x softmax =
      DenseNet.forwardT F r2 false P x softmax := by
  have hfold : ∀ (its : List HVal), its.all HVal.dropFree = true →
      ∀ a : List α,
      its.foldl (fun a it => HVal.forwardT F r1 false it a) a =
      its.foldl (fun a it => HVal.forwardT F r2 false it a) a := by
    intro its
    induction its with
    | nil => intro _ a; rfl
    | cons it rest ih =>
      intro hall a
      rw [List.all_cons, Bool.and_eq_true] at hall
      simp only [List.foldl_cons]
      rw [hval_forwardT_rng_free F false it hall.1 r1 r2 a]
      exact ih hall.2 _
  have e : ∀ r : ρ, DenseNet.forwardT F r false P x softmax =
      (if softmax then F.clippedSoftmaxApply P.eps else id)
        (linearT P.linW P.linB (F.flattenApply
          ((swishT F (batchNormT F P.gF P.bF
            (P.body.foldl (fun a it => HVal.forwardT F r false it a)
              ((swishT F (batchNormT F P.gI P.bI
                (conv3x3T F P.convI (F.viewStem x)))).map
                F.maxPoolApply)))).map F.avgPool2Apply))) := by
    intro r
    rw [DenseNet.forwardT, DenseNet.hiddenT]
    split <;> rfl
  rw [e r1, e r2, hfold P.body h]

/-- C9 witness: on the concrete dropout-free network net0, the two
Boolean random states give the same output. -/
theorem forward_deterministic_no_dropout_witness :
    net0.body.all HVal.dropFree = true ∧
    DenseNet.forwardT ratFramework true false net0 [3, 4] false =
      DenseNet.forwardT ratFramework false false net0 [3, 4] false :=
  ⟨by decide,
   forward_deterministic_no_dropout ratFramework net0 [3, 4] false
     (by decide) true false⟩

/-- A fold of read-only steps leaves the parameter state unchanged and
computes the same output as the plain fold of the forwards. -/
theorem foldl_readonly_fst (F : Framework α ρ) (r : ρ) (training : Bool) :
    ∀ (its : List HVal) (st : NetP × List α),
      (its.foldl (fun st it =>
          (st.1, HVal.forwardT F r training it st.2)) st).1 = st.1 ∧
      (its.foldl (fun st it =>
          (st.1, HVal.forwardT F r training it st.2)) st).2 =
        its.foldl (fun a it => HVal.forwardT F r training it a) st.2 := by
  intro its
  induction its with
  | nil => intro st; exact ⟨rfl, rfl⟩
  | cons it rest ih =>
    intro st
    simpa using ih (st.1, HVal.forwardT F r training it st.2)

/-- C8: a forward pass, with either flag value, leaves every parameter
tensor of the module tree unchanged: the state-passing forward returns
the parameter state it was given, and its output is the pure forward of
those parameters. -/
theorem forward_frame (F : Framework α ρ) (r : ρ) (training : Bool)
    (p : NetP) (x : List ℚ) (softmax : Bool) :
    (DenseNet.forwardS F r training p x softmax).1 = p ∧
    (DenseNet.forwardS F r training p x softmax).2 =
      DenseNet.forwardT F r training p x softmax := by
  obtain ⟨h1, h2⟩ := foldl_readonly_fst F r training p.body
    (p, (swishT F (batchNormT F p.gI p.bI
      (conv3x3T F p.convI (F.viewStem x)))).map F.maxPoolApply)
  constructor
  · simp only [DenseNet.forwardS]
    rw [h1]
  · simp only [DenseNet.forwardS, DenseNet.forwardT, DenseNet.hiddenT]
    rw [h1, h2]

/-! ### The initialisation-policy theorems -/

/-- Mapping a list to a constant makes every member that constant. -/
theorem allOnes_map_const (l : List ℚ) : allOnes (l.map fun _ => (1 : ℚ)) := by
  intro v hv
  rw [List.mem_map] at hv
  obtain ⟨_, _, rfl⟩ := hv
  rfl

/-- Mapping a list to zero makes every member zero. -/
theorem allZeros_map_const (l : List ℚ) :
    allZeros (l.map fun _ => (0 : ℚ)) := by
  intro v hv
  rw [List.mem_map] at hv
  obtain ⟨_, _, rfl⟩ := hv
  rfl

/-- After the pass, both norms of a dense layer are at unit weight and
zero bias. -/
theorem dlayer_initPass_normsInit (rand : Nat → ℚ) (off : Nat)
    (P : DLayerP) : ((DLayerP.initPass rand off P).1).normsInit :=
  ⟨allOnes_map_const P.g1, allZeros_map_const P.b1,
   allOnes_map_const P.g2, allZeros_map_const P.b2⟩

/-- After the pass, every layer of a block has initialised norms. -/
theorem blockInitPass_normsInit (rand : Nat → ℚ) :
    ∀ (ls : List DLayerP) (off : Nat),
      ∀ l ∈ (blockInitPass rand off ls).1, l.normsInit := by
  intro ls
  induction ls with
  | nil => intro off l hl; cases hl
  | cons a rest ih =>
    intro off l hl
    rw [show (blockInitPass rand off (a :: rest)).1 =
        (DLayerP.initPass rand off a).1 ::
        (blockInitPass rand (DLayerP.initPass rand off a).2 rest).1
      from rfl] at hl
    rcases List.mem_cons.mp hl with h | h
    · rw [h]; exact dlayer_initPass_normsInit rand off a
    · exact ih _ l h

/-- After the pass, every body item has initialised norms. -/
theorem hval_initPass_normsInit (rand : Nat → ℚ) (off : Nat) (it : HVal) :
    ((HVal.initPass rand off it).1).normsInit := by
  cases it with
  | block ls =>
    intro l hl
    exact blockInitPass_normsInit rand ls off l hl
  | trans t =>
    exact ⟨allOnes_map_const t.g, allZeros_map_const t.b⟩

/-- After the pass, every item of the body list has initialised norms. -/
theorem bodyInitPass_normsInit (rand : Nat → ℚ) :
    ∀ (its : List HVal) (off : Nat),
      ∀ it ∈ (bodyInitPass rand off its).1, it.normsInit := by
  intro its
  induction its with
  | nil => intro off it hit; cases hit
  | cons a rest ih =>
    intro off it hit
    rw [show (bodyInitPass rand off (a :: rest)).1 =
        (HVal.initPass rand off a).1 ::
        (bodyInitPass rand (HVal.initPass rand off a).2 rest).1
      from rfl] at hit
    rcases List.mem_cons.mp hit with h | h
    · rw [h]; exact hval_initPass_normsInit rand off a
    · exact ih _ it h

/-- Away from the convolution weights, the pass over one body item does
not depend on the random stream or the offset. -/
theorem hval_initPass_eraseConv (r1 : Nat → ℚ) (o1 : Nat) (r2 : Nat → ℚ)
    (o2 : Nat) (it : HVal) :
    HVal.eraseConv ((HVal.initPass r1 o1 it).1) =
      HVal.eraseConv ((HVal.initPass r2 o2 it).1) := by
  cases it with
  | block ls =>
    show HVal.block (((blockInitPass r1 o1 ls).1).map DLayerP.eraseConv) =
      HVal.block (((blockInitPass r2 o2 ls).1).map DLayerP.eraseConv)
    congr 1
    induction ls generalizing o1 o2 with
    | nil => rfl
    | cons a rest ih =>
      show DLayerP.eraseConv ((DLayerP.initPass r1 o1 a).1) ::
          ((blockInitPass r1 (DLayerP.initPass r1 o1 a).2 rest).1).map
            DLayerP.eraseConv =
        DLayerP.eraseConv ((DLayerP.initPass r2 o2 a).1) ::
          ((blockInitPass r2 (DLayerP.initPass r2 o2 a).2 rest).1).map
            DLayerP.eraseConv
      rw [show DLayerP.eraseConv ((DLayerP.initPass r1 o1 a).1) =
          DLayerP.eraseConv ((DLayerP.initPass r2 o2 a).1) from rfl]
      rw [ih _ _]
  | trans t => rfl

/-- Away from the convolution weights, the pass over the body list does
not depend on the random stream or the offset. -/
theorem bodyInitPass_eraseConv (its : List HVal) :
    ∀ (r1 : Nat → ℚ) (o1 : Nat) (r2 : Nat → ℚ) (o2 : Nat),
    ((bodyInitPass r1 o1 its).1).map HVal.eraseConv =
      ((bodyInitPass r2 o2 its).1).map HVal.eraseConv := by
  induction its with
  | nil => intro r1 o1 r2 o2; rfl
  | cons a rest ih =>
    intro r1 o1 r2 o2
    show HVal.eraseConv ((HVal.initPass r1 o1 a).1) ::
        ((bodyInitPass r1 (HVal.initPass r1 o1 a).2 rest).1).map
          HVal.eraseConv =
      HVal.eraseConv ((HVal.initPass r2 o2 a).1) ::
        ((bodyInitPass r2 (HVal.initPass r2 o2 a).2 rest).1).map
          HVal.eraseConv
    rw [hval_initPass_eraseConv r1 o1 r2 o2 a, ih _ _ _ _]

/-- C7: after the one-time initialisation pass, every normalisation
layer has unit weights and zero biases, the classifier bias is zero
while the classifier weight is exactly the one it had before the pass
(the framework default); and re-running the pass with any other random
stream or offset changes only convolution weights. -/
theorem init_policy (rand : Nat → ℚ) (off : Nat) (P : NetP) :
    allOnes ((NetP.initPass rand off P).1).gI ∧
    allZeros ((NetP.initPass rand off P).1).bI ∧
    (∀ it ∈ ((NetP.initPass rand off P).1).body, it.normsInit) ∧
    allOnes ((NetP.initPass rand off P).1).gF ∧
    allZeros ((NetP.initPass rand off P).1).bF ∧
    allZeros ((NetP.initPass rand off P).1).linB ∧
    ((NetP.initPass rand off P).1).linW = P.linW ∧
    ∀ (rand2 : Nat → ℚ) (off2 : Nat),
      NetP.eraseConv ((NetP.initPass rand2 off2 P).1) =
        NetP.eraseConv ((NetP.initPass rand off P).1) := by
  refine ⟨allOnes_map_const P.gI, allZeros_map_const P.bI, ?_,
    allOnes_map_const P.gF, allZeros_map_const P.bF,
    allZeros_map_const P.linB, rfl, ?_⟩
  · intro it hit
    exact bodyInitPass_normsInit rand P.body
      ((kaimingFill rand off P.convI).2) it hit
  · intro rand2 off2
    have e : ∀ (r : Nat → ℚ) (o : Nat),
        NetP.eraseConv ((NetP.initPass r o P).1) =
        ⟨[], P.gI.map fun _ => (1 : ℚ), P.bI.map fun _ => (0 : ℚ),
          ((bodyInitPass r ((kaimingFill r o P.convI).2) P.body).1).map
            HVal.eraseConv,
          P.gF.map fun _ => (1 : ℚ), P.bF.map fun _ => (0 : ℚ),
          P.linW, P.linB.map fun _ => (0 : ℚ), P.eps⟩ :=
      fun r o => rfl
    rw [e rand2 off2, e rand off,
      bodyInitPass_eraseConv P.body rand2 _ rand _]

/-- C7 witness: on the concrete network net0 and the identity random
stream, the pass yields unit stem-norm weights and keeps the classifier
weight. -/
theorem init_policy_witness :
    allOnes ((NetP.initPass (fun n => (n : ℚ)) 0 net0).1).gI ∧
    ((NetP.initPass (fun n => (n : ℚ)) 0 net0).1).linW = net0.linW := by
  have h := init_policy (fun n => (n : ℚ)) 0 net0
  exact ⟨h.1, h.2.2.2.2.2.2.1⟩

/-! ### The clipped-softmax theorems -/

/-- Softmax rows sum to 1 when there is at least one class. -/
theorem softmaxR_sum (n : Nat) (hn : 0 < n) (x : Fin n → ℝ) :
    ∑ i, softmaxR n x i = 1 := by
  have : Nonempty (Fin n) := ⟨⟨0, hn⟩⟩
  have hpos : 0 < ∑ j, Real.exp (x j) :=
    Finset.sum_pos (fun j _ => Real.exp_pos (x j)) Finset.univ_nonempty
  simp only [softmaxR]
  rw [← Finset.sum_div]
  exact div_self (ne_of_gt hpos)

/-- Each softmax entry lies in [0, 1]. -/
theorem softmaxR_mem_Icc (n : Nat) (x : Fin n → ℝ) (i : Fin n) :
    0 ≤ softmaxR n x i ∧ softmaxR n x i ≤ 1 := by
  have hnn : (0:ℝ) ≤ ∑ j, Real.exp (x j) :=
    Finset.sum_nonneg fun j _ => (Real.exp_pos _).le
  constructor
  · exact div_nonneg (Real.exp_pos _).le hnn
  · exact div_le_one_of_le₀
      (Finset.single_le_sum (fun j _ => (Real.exp_pos (x j)).le)
        (Finset.mem_univ i)) hnn

/-- Clamping a value of [0, 1] into [eps, 1 - eps] moves it by at most
eps. -/
theorem clamp_abs_le (eps s : ℝ) (h0 : 0 ≤ eps) (he : eps ≤ 1 - eps)
    (hs0 : 0 ≤ s) (hs1 : s ≤ 1) :
    |max eps (min (1 - eps) s) - s| ≤ eps := by
  rcases le_or_lt s eps with hle | hgt
  · rw [min_eq_right (hle.trans he), max_eq_left hle,
      abs_of_nonneg (by linarith)]
    linarith
  · rcases le_or_lt s (1 - eps) with hle2 | hgt2
    · rw [min_eq_right hle2, max_eq_right hgt.le]
      simpa using h0
    · rw [min_eq_left hgt2.le, max_eq_right he,
        abs_of_nonpos (by linarith)]
      linarith

/-- C4 as amended: with the flag unset the forward returns the raw
scores unchanged; with the flag set and 0 <= eps <= 1/2, every output
entry lies in the closed interval [eps, 1 - eps] and each row sums to 1
up to n * eps. -/
theorem forward_softmax_clamped (n : Nat) (hn : 0 < n) (eps : ℝ)
    (h0 : 0 ≤ eps) (h2 : eps ≤ 1 / 2) (out : Fin n → ℝ) :
    DenseNet.forwardR n out eps false = out ∧
    (∀ i, eps ≤ DenseNet.forwardR n out eps true i ∧
      DenseNet.forwardR n out eps true i ≤ 1 - eps) ∧
    |(∑ i, DenseNet.forwardR n out eps true i) - 1| ≤ n * eps := by
  have he : eps ≤ 1 - eps := by linarith
  have e : ∀ i, DenseNet.forwardR n out eps true i =
      max eps (min (1 - eps) (softmaxR n out i)) := fun i => rfl
  refine ⟨rfl, ?_, ?_⟩
  · intro i
    rw [e i]
    exact ⟨le_max_left _ _, max_le he (min_le_left _ _)⟩
  · calc |(∑ i, DenseNet.forwardR n out eps true i) - 1|
        = |∑ i, (DenseNet.forwardR n out eps true i - softmaxR n out i)| := by
          rw [Finset.sum_sub_distrib, softmaxR_sum n hn out]
      _ ≤ ∑ i, |DenseNet.forwardR n out eps true i - softmaxR n out i| :=
          Finset.abs_sum_le_sum_abs _ _
      _ ≤ ∑ _i : Fin n, eps := by
          refine Finset.sum_le_sum fun i _ => ?_
          rw [e i]
          exact clamp_abs_le eps _ h0 he (softmaxR_mem_Icc n out i).1
            (softmaxR_mem_Icc n out i).2
      _ = n * eps := by
          rw [Finset.sum_const, Finset.card_univ, Fintype.card_fin,
            nsmul_eq_mul]

/-- C4 amended witness: the amended bounds hold at 2 classes, eps = 1/4
and a zero score vector. -/
theorem forward_softmax_clamped_witness :
    (0 : Nat) < 2 ∧ (0 : ℝ) ≤ 1 / 4 ∧ (1 / 4 : ℝ) ≤ 1 / 2 ∧
    (DenseNet.forwardR 2 (fun _ => 0) (1 / 4) false = (fun _ => 0) ∧
     (∀ i, (1 / 4 : ℝ) ≤ DenseNet.forwardR 2 (fun _ => 0) (1 / 4) true i ∧
       DenseNet.forwardR 2 (fun _ => 0) (1 / 4) true i ≤ 1 - 1 / 4) ∧
     |(∑ i, DenseNet.forwardR 2 (fun _ => 0) (1 / 4) true i) - 1| ≤
       2 * (1 / 4)) := by
  refine ⟨by norm_num, by norm_num, by norm_num, ?_⟩
  have h := forward_softmax_clamped 2 (by norm_num) (1 / 4) (by norm_num)
    (by norm_num) (fun _ => 0)
  refine ⟨h.1, h.2.1, ?_⟩
  have := h.2.2
  norm_num at this ⊢
  exact this

/-- C4 counterexample: with eps = 1/100 and raw scores (0, 10), the
first output entry of the flagged forward equals eps exactly, so the
entries do not all lie strictly inside (eps, 1 - eps). -/
theorem forward_softmax_strict_counterexample :
    ¬ (∀ i : Fin 2,
      (1 / 100 : ℝ) <
        DenseNet.forwardR 2 (fun j => if j = 0 then 0 else 10)
          (1 / 100) true i ∧
      DenseNet.forwardR 2 (fun j => if j = 0 then 0 else 10)
          (1 / 100) true i < 1 - 1 / 100) := by
  intro hall
  have hexp : (99 : ℝ) < Real.exp 10 := by
    have h1 : (2 : ℝ) ≤ Real.exp 1 := by
      have := Real.exp_one_gt_d9
      linarith
    have h2 : ((2 : ℝ)) ^ (10 : ℕ) ≤ (Real.exp 1) ^ (10 : ℕ) :=
      pow_le_pow_left₀ (by norm_num) h1 10
    have h3 : Real.exp (((10 : ℕ) : ℝ) * (1 : ℝ)) =
        (Real.exp 1) ^ (10 : ℕ) := Real.exp_nat_mul 1 10
    have h4 : (((10 : ℕ) : ℝ)) * (1 : ℝ) = (10 : ℝ) := by norm_num
    rw [h4] at h3
    rw [h3]
    calc (99 : ℝ) < 1024 := by norm_num
      _ = (2 : ℝ) ^ (10 : ℕ) := by norm_num
      _ ≤ _ := h2
  have hs : softmaxR 2 (fun j => if j = 0 then 0 else 10) 0 =
      1 / (1 + Real.exp 10) := by
    rw [softmaxR, Fin.sum_univ_two]
    norm_num [Real.exp_zero]
  have hslt : softmaxR 2 (fun j => if j = 0 then 0 else 10) 0 <
      1 / 100 := by
    rw [hs, div_lt_div_iff₀ (by positivity) (by norm_num)]
    linarith
  have hfe : DenseNet.forwardR 2 (fun j => if j = 0 then 0 else 10)
      (1 / 100) true 0 = 1 / 100 := by
    have e : DenseNet.forwardR 2 (fun j => if j = 0 then 0 else 10)
        (1 / 100) true 0 =
        max (1 / 100) (min (1 - 1 / 100)
          (softmaxR 2 (fun j => if j = 0 then 0 else 10) 0)) := rfl
    rw [e, min_eq_right (by linarith), max_eq_left hslt.le]
  have hlt := (hall 0).1
  rw [hfe] at hlt
  exact lt_irrefl _ hlt

/-! ### The wildcard-view theorems -/

/-- C10: the final reshape to (-1, 195 * 4) succeeds on any element
count divisible by 780, producing batch dimension numel / 780 silently
(a per-sample size m * 780 turns batch b into b * m), and raises a
shape error exactly when the element count is not divisible by 780. -/
theorem viewFlat_wildcard_batch (numel : Nat) :
    ((195 * 4) ∣ numel →
      View.forwardFlat (195 * 4) numel =
        some (numel / (195 * 4), 195 * 4)) ∧
    (¬ (195 * 4) ∣ numel → View.forwardFlat (195 * 4) numel = none) ∧
    (∀ b m, b * (m * (195 * 4)) = numel →
      View.forwardFlat (195 * 4) numel = some (b * m, 195 * 4)) := by
  refine ⟨?_, ?_, ?_⟩
  · intro h
    rw [View.forwardFlat, if_pos (Nat.dvd_iff_mod_eq_zero.mp h)]
  · intro h
    rw [View.forwardFlat, if_neg]
    intro hmod
    exact h (Nat.dvd_iff_mod_eq_zero.mpr hmod)
  · intro b m hbm
    have hz : numel % (195 * 4) = 0 := by
      rw [← hbm, ← Nat.mul_assoc]
      exact Nat.mul_mod_left _ _
    have hq : numel / (195 * 4) = b * m := by
      rw [← hbm, ← Nat.mul_assoc]
      exact Nat.mul_div_cancel _ (by norm_num)
    rw [View.forwardFlat, if_pos hz, hq]

/-- C10 witness: 1560 elements reshape silently to batch 2 (two samples
of 780, or one sample of 1560 silently split), while 1000 elements raise
a shape error. -/
theorem viewFlat_wildcard_batch_witness :
    View.forwardFlat (195 * 4) 1560 = some (1560 / (195 * 4), 195 * 4) ∧
    View.forwardFlat (195 * 4) 1000 = none :=
  ⟨(viewFlat_wildcard_batch 1560).1 (by decide),
   (viewFlat_wildcard_batch 1000).2.1 (by decide)⟩
